import Mathlib

set_option maxHeartbeats 1000000
set_option linter.unusedVariables false

deriving instance DecidableEq for Except

namespace UStorage

/-! Shallow embedding of the `ustorage` storage abstraction:
`ustorage/bases.py` (Config, BaseStorage defaults) and
`ustorage/s3.py` (S3Storage), with `ustorage/exceptions.py` as the
error taxonomy.  Bytes are modelled as `List Nat`, Python `str` as
`String`, Python values that may be `None` as `PyVal`. -/

/-- Python value that is either a string or `None` (as passed in
user metadata mappings). -/
inductive PyVal where
  | str (s : String)
  | none
deriving DecidableEq, Repr

/-- Python `str(v)` for a `PyVal`: a string renders as itself and
`None` renders as the string "None".  Models the `text_type(v)`
coercion in `S3Storage.write`. -/
def pyStr : PyVal → String
  | .str s => s
  | .none => "None"

/-- Python `s.lower()`, modelled character-wise. -/
def lowerStr (s : String) : String :=
  String.mk (s.data.map Char.toLower)

/-- Python `needle in hay` substring test on character lists. -/
def containsSeq (needle : List Char) : List Char → Bool
  | [] => needle.isEmpty
  | c :: t => needle.isPrefixOf (c :: t) || containsSeq needle t

/-- Backend-native error (`botocore.exceptions.ClientError`), carrying
the exception class name and the error message. -/
structure ClientError where
  className : String
  message : String
deriving DecidableEq, Repr

/-- Embeds `_is_no_such_key_error` from `ustorage/s3.py`: the error is
a not-found signal when its class name is `NoSuchKey` or its lowered
message contains "not found".  (The `isinstance(e, ClientError)` guard
is vacuous here since the model only feeds in `ClientError`s.) -/
def is_no_such_key_error (e : ClientError) : Bool :=
  e.className == "NoSuchKey" || containsSeq "not found".data (lowerStr e.message).data

/-- Normalized storage-layer failure taxonomy (`ustorage/exceptions.py`):
`fileNotFound` models `FileNotFound`; `client` models a backend
`ClientError` propagating unchanged through the storage layer. -/
inductive StorageErr where
  | fileNotFound (msg : String)
  | client (e : ClientError)
deriving DecidableEq, Repr

/-- One stored S3 object, with the fields `_extract_metadata` reads. -/
structure StoredObj where
  body : List Nat
  contentType : Option String
  e_tag : String
  content_length : Nat
  last_modified : Nat
  metadata : List (String × String)
deriving DecidableEq, Repr

/-- The bucket contents: an association list from key to object. -/
abbrev S3State := List (String × StoredObj)

/-- Exact-key lookup in the bucket. -/
def lookupObj : S3State → String → Option StoredObj
  | [], _ => Option.none
  | (k, o) :: t, name => if k = name then some o else lookupObj t name

/-- ClientError raised by `Object.load()` (HEAD) on a missing key. -/
def headNotFoundErr : ClientError :=
  ⟨"ClientError", "An error occurred (404) when calling the HeadObject operation: Not Found"⟩

/-- ClientError raised by `Object.get()` on a missing key. -/
def getNotFoundErr : ClientError :=
  ⟨"NoSuchKey", "The specified key does not exist."⟩

/-- Backend `Object.load()`: succeeds on a present key, raises the
HEAD 404 `ClientError` on a missing one. -/
def objLoad (st : S3State) (name : String) : Except ClientError StoredObj :=
  match lookupObj st name with
  | some o => .ok o
  | Option.none => .error headNotFoundErr

/-- Backend `Object.get()`: succeeds on a present key, raises the
`NoSuchKey` `ClientError` on a missing one. -/
def objGet (st : S3State) (name : String) : Except ClientError StoredObj :=
  match lookupObj st name with
  | some o => .ok o
  | Option.none => .error getNotFoundErr

/-- The `try/except ClientError` block of `S3Storage.exists`: a
recognized not-found signal becomes `False`, success becomes `True`,
any other backend error re-raises unchanged. -/
def existsHandle (r : Except ClientError StoredObj) : Except StorageErr Bool :=
  match r with
  | .ok _ => .ok true
  | .error e => if is_no_such_key_error e then .ok false else .error (.client e)

/-- `S3Storage.exists`. -/
def S3exists (st : S3State) (name : String) : Except StorageErr Bool :=
  existsHandle (objLoad st name)

/-- The `try/except ClientError` block of `S3Storage.read` (and of
`open` in a read mode): a recognized not-found signal raises
`FileNotFound("<name> not found.")`, any other backend error
re-raises unchanged; on success the object's body is returned. -/
def readHandle (name : String) (r : Except ClientError StoredObj) :
    Except StorageErr (List Nat) :=
  match r with
  | .ok o => .ok o.body
  | .error e =>
    if is_no_such_key_error e then .error (.fileNotFound (name ++ " not found."))
    else .error (.client e)

/-- `S3Storage.read`. -/
def S3read (st : S3State) (name : String) : Except StorageErr (List Nat) :=
  readHandle name (objGet st name)

/-- `S3Storage.open` in a read mode: yields the object's body stream
(the `codecs` reader wrapping for text mode is transparent here). -/
def S3openRead (st : S3State) (name : String) : Except StorageErr (List Nat) :=
  readHandle name (objGet st name)

/-! Python dict modelling: association lists with exact-key semantics.
`dictSet` replaces in place (a present key keeps its position, as in a
Python dict), `dictUpdate` folds `dictSet` over the right operand
(`d.update(u)`). -/

/-- First value stored under an exact key. -/
def dictLookup {α : Type} : List (String × α) → String → Option α
  | [], _ => Option.none
  | (k2, v) :: t, k => if k2 = k then some v else dictLookup t k

/-- Python `d[k] = v`: replace in place, else append. -/
def dictSet {α : Type} : List (String × α) → String → α → List (String × α)
  | [], k, v => [(k, v)]
  | (k2, v2) :: t, k, v =>
    if k2 = k then (k, v) :: t else (k2, v2) :: dictSet t k v

/-- Python `del d[k]`: remove the exact key. -/
def dictRemove {α : Type} (d : List (String × α)) (k : String) : List (String × α) :=
  d.filter (fun p => p.1 ≠ k)

/-- Python `d.update(u)`. -/
def dictUpdate {α : Type} (d u : List (String × α)) : List (String × α) :=
  u.foldl (fun acc kv => dictSet acc kv.1 kv.2) d

/-! The Config container from `ustorage/bases.py`. -/

/-- `Config.__getattr__`: the stored value, or an `AttributeError`
("Unknown attribute: <name>") when the key is missing. -/
def configGetattr {α : Type} (c : List (String × α)) (k : String) : Except String α :=
  match dictLookup c k with
  | some v => .ok v
  | Option.none => .error ("Unknown attribute: " ++ k)

/-- `Config.__setattr__`: unconditional insert-or-replace. -/
def configSetattr {α : Type} (c : List (String × α)) (k : String) (v : α) :
    List (String × α) :=
  dictSet c k v

/-- `Config.__delattr__`: removes a present key, raises the same
`AttributeError` as `__getattr__` on a missing one. -/
def configDelattr {α : Type} (c : List (String × α)) (k : String) :
    Except String (List (String × α)) :=
  if (dictLookup c k).isSome then .ok (dictRemove c k)
  else .error ("Unknown attribute: " ++ k)

/-! Metadata extraction (`_extract_metadata` in `ustorage/s3.py`). -/

/-- Value in a Metadata Record: derived strings, the backend-reported
size and modification time, or Python `None` (the `mime` slot when no
content type is reported). -/
inductive MetaVal where
  | str (s : String)
  | nat (n : Nat)
  | time (t : Nat)
  | pynone
deriving DecidableEq, Repr

/-- Python `s[1:-1]`: drop the first and the last character. -/
def sliceInner (s : String) : String :=
  String.mk ((s.data.drop 1).dropLast)

/-- Python `s.split(';', 1)[0]`: everything before the first ';'. -/
def takeUntilSemi (s : String) : String :=
  String.mk (s.data.takeWhile (fun c => c ≠ ';'))

/-- The four derived entries of the metadata dict literal in
`_extract_metadata`: checksum from the e-tag with its first and last
characters stripped, size, mime (content type truncated at the first
';', or `None` when the backend reports no/empty content type), and
modification time. -/
def metaBase (o : StoredObj) : List (String × MetaVal) :=
  [("checksum", .str ("md5:" ++ sliceInner o.e_tag)),
   ("size", .nat o.content_length),
   ("mime",
     match o.contentType with
     | some ct => if ct = "" then .pynone else .str (takeUntilSemi ct)
     | Option.none => .pynone),
   ("modified", .time o.last_modified)]

/-- `_extract_metadata(obj)`: the derived entries, then
`meta.update(obj.metadata)` merges the user metadata last. -/
def _extract_metadata (o : StoredObj) : List (String × MetaVal) :=
  dictUpdate (metaBase o) (o.metadata.map (fun kv => (kv.1, MetaVal.str kv.2)))

/-- The `try/except ClientError` context of `_extract_metadata` as it
runs inside `S3Storage.get_metadata`: the lazy attribute reads hit the
backend, a recognized not-found signal raises
`FileNotFound("<key> not found.")`, anything else re-raises. -/
def extractHandle (key : String) (r : Except ClientError StoredObj) :
    Except StorageErr (List (String × MetaVal)) :=
  match r with
  | .ok o => .ok (_extract_metadata o)
  | .error e =>
    if is_no_such_key_error e then .error (.fileNotFound (key ++ " not found."))
    else .error (.client e)

/-- `S3Storage.get_metadata`. -/
def S3get_metadata (st : S3State) (name : String) :
    Except StorageErr (List (String × MetaVal)) :=
  extractHandle name (objLoad st name)

/-! Content coercion and `S3Storage.write`. -/

/-- The shapes `as_binary` accepts: raw bytes, text, or a readable
stream (anything with a `read()` method). -/
inductive Content where
  | bytes (b : List Nat)
  | text (s : String)
  | stream (b : List Nat)
deriving DecidableEq, Repr

/-- Models the external text codec of `as_binary` as the sequence of
code points of the string. -/
def encodeStr (s : String) : List Nat :=
  s.data.map Char.toNat

/-- `BaseStorage.as_binary`: a stream is drained with `read()`, text
is encoded, bytes pass through. -/
def as_binary : Content → List Nat
  | .stream b => b
  | .text s => encodeStr s
  | .bytes b => b

/-- Modelled from the spec: `CaseInsensitiveDict` is imported from
`ustorage.utils` but that module under `src/` does not define it; per
the spec, user-metadata keys compare case-insensitively.  Membership
test under case-insensitive comparison. -/
def cidHasKey (d : List (String × PyVal)) (k : String) : Bool :=
  d.any (fun p => lowerStr p.1 = lowerStr k)

/-- Modelled from the spec: case-insensitive insert-or-replace (the
replacing entry keeps the position and takes the new key casing). -/
def cidInsert : List (String × PyVal) → String → PyVal → List (String × PyVal)
  | [], k, v => [(k, v)]
  | (k2, v2) :: t, k, v =>
    if lowerStr k2 = lowerStr k then (k, v) :: t else (k2, v2) :: cidInsert t k v

/-- Modelled from the spec: building the case-insensitive mapping from
a caller-supplied association list (later case-insensitive duplicates
replace earlier ones, as successive dict stores would). -/
def cidOfList (l : List (String × PyVal)) : List (String × PyVal) :=
  l.foldl (fun acc kv => cidInsert acc kv.1 kv.2) []

/-- Modelled from the spec: case-insensitive value lookup. -/
def cidGet : List (String × PyVal) → String → Option PyVal
  | [], _ => Option.none
  | (k2, v) :: t, k => if lowerStr k2 = lowerStr k then some v else cidGet t k

/-- Modelled from the spec: case-insensitive key removal (the removal
part of `metadata.pop('Content-Type', None)`). -/
def cidRemove (d : List (String × PyVal)) (k : String) : List (String × PyVal) :=
  d.filter (fun p => lowerStr p.1 ≠ lowerStr k)

/-- `drop_none_values` from `ustorage/utils/__init__.py`, on a
mapping: keep the entries whose value is not `None`. -/
def drop_none_values (d : List (String × PyVal)) : List (String × PyVal) :=
  d.filter (fun p => p.2 ≠ PyVal.none)

/-- The single backend put issued by `S3Storage.write`
(`bucket.put_object`): key, body bytes, resolved content type (absent
when it resolved to `None` and was dropped by `drop_none_values`), and
the user-metadata mapping actually sent. -/
structure PutCall where
  key : String
  body : List Nat
  contentType : Option String
  metadata : List (String × String)
deriving DecidableEq, Repr

/-- Placeholder entity tag the backend assigns to a stored body. -/
def mkETag (b : List Nat) : String :=
  "\"" ++ String.intercalate "." (b.map toString) ++ "\""

/-- Effect of a put on the bucket. -/
def applyPut (st : S3State) (c : PutCall) : S3State :=
  dictSet st c.key
    { body := c.body, contentType := c.contentType, e_tag := mkETag c.body,
      content_length := c.body.length, last_modified := 0, metadata := c.metadata }

/-- `S3Storage.write(name, content, metadata)`, parameterized by the
external MIME-sniffing collaborator `files.mime` (`mimeF`, returning
`Option.none` when no type is known): build the case-insensitive
mapping, coerce every value with `str`, auto-detect `Content-Type`
only when absent, pop the content type, drop `None`-valued put
arguments, and issue the single put.  Returns the new bucket state and
the put that was issued. -/
def S3write (mimeF : String → Option String) (st : S3State) (name : String)
    (content : Content) (md : Option (List (String × PyVal))) : S3State × PutCall :=
  let m0 := cidOfList (match md with | some l => l | Option.none => [])
  let m1 := m0.map (fun kv => (kv.1, PyVal.str (pyStr kv.2)))
  let m2 :=
    if cidHasKey m1 "Content-Type" then m1
    else cidInsert m1 "Content-Type"
      (match mimeF name with | some s => PyVal.str s | Option.none => PyVal.none)
  let ctOpt : Option String :=
    match cidGet m2 "Content-Type" with
    | some (PyVal.str s) => some s
    | _ => Option.none
  let m3 := cidRemove m2 "Content-Type"
  let call : PutCall :=
    { key := name, body := as_binary content, contentType := ctOpt,
      metadata := (drop_none_values m3).map (fun kv => (kv.1, pyStr kv.2)) }
  (applyPut st call, call)

/-- `BaseStorage.save(file_or_wfs, name, overwrite=False)` as the code
implements it for the S3 backend: read the source and write it to the
name, returning the name.  (No `exists`/`overwrite` check is made.) -/
def save (mimeF : String → Option String) (st : S3State) (source : List Nat)
    (name : String) ( overwrite : Bool) : S3State × String :=
  ((S3write mimeF st name (Content.bytes source) Option.none).1, name)

/-! Delete, copy, move. -/

/-- Python `target.startswith(p)` / boto `Prefix=` matching on keys. -/
def strStarts (p s : String) : Bool :=
  p.data.isPrefixOf s.data

/-- The net effect of iterating `bucket.objects.filter(Prefix=name)`
and deleting each object: every key starting with `name` is removed. -/
def delAll (st : S3State) (name : String) : S3State :=
  st.filter (fun kv => !strStarts name kv.1)

/-- `S3Storage.delete`: always succeeds (deleting zero objects raises
nothing). -/
def S3delete (st : S3State) (name : String) : Except StorageErr S3State :=
  .ok (delAll st name)

/-- ClientError raised by `bucket.copy` on a missing source key. -/
def copyNotFoundErr : ClientError :=
  ⟨"ClientError", "An error occurred (404) when calling the HeadObject operation: Not Found"⟩

/-- `S3Storage.copy`: server-side copy of the source object to the
target key; the backend error on a missing source propagates raw (the
code wraps it in no `try/except`). -/
def S3copy (st : S3State) (name target : String) : Except StorageErr S3State :=
  match lookupObj st name with
  | some o => .ok (dictSet st target o)
  | Option.none => .error (.client copyNotFoundErr)

/-- `BaseStorage.move`: `copy(name, target)` then `delete(name)`. -/
def move (st : S3State) (name target : String) : Except StorageErr S3State :=
  Except.bind (S3copy st name target) (fun st1 => S3delete st1 name)

/-! Write-mode `open` (the spooled temp-buffer scope). -/

/-- `S3Storage.open` in a write mode, as a function of the scope body's
outcome: `some buf` is a normal exit having buffered `buf`, `Option.none`
is an early/error exit (the exception is thrown into the generator at
the yield, so the code after the yield never runs).  Returns the new
bucket state and the number of puts issued. -/
def S3openWrite (st : S3State) (name : String) (body : Option (List Nat)) :
    S3State × Nat :=
  match body with
  | some buf =>
    (applyPut st { key := name, body := buf, contentType := Option.none, metadata := [] }, 1)
  | Option.none => (st, 0)

/-! Collision-free name generation (`BaseStorage.get_available_name`). -/

/-- Index (from the front) of the last occurrence of `c`, Python
`rfind` restricted to found/not-found. -/
def rfindIdx (c : Char) : List Char → Option Nat
  | [] => Option.none
  | a :: t =>
    match rfindIdx c t with
    | some i => some (i + 1)
    | Option.none => if a = c then some 0 else Option.none

/-- Python `l.rstrip('/')` on a character list. -/
def stripTrailSlashes (l : List Char) : List Char :=
  (l.reverse.dropWhile (fun c => c = '/')).reverse

/-- `os.path.split` (posix): split at the last '/', stripping the
head's trailing slashes unless the head is all slashes. -/
def osSplit (p : String) : String × String :=
  let l := p.data
  match rfindIdx '/' l with
  | Option.none => ("", p)
  | some i =>
    let head := l.take (i + 1)
    let tail := l.drop (i + 1)
    (String.mk (if head.all (fun c => c = '/') then head else stripTrailSlashes head),
     String.mk tail)

/-- `os.path.splitext` (posix) on a name without '/': split at the
last '.', unless every earlier character is also a '.'. -/
def splitext (p : String) : String × String :=
  let l := p.data
  match rfindIdx '.' l with
  | Option.none => (p, "")
  | some d =>
    if (l.take d).all (fun c => c = '.') then (p, "")
    else (String.mk (l.take d), String.mk (l.drop d))

/-- `os.path.join` (posix) for two components. -/
def osJoin (a b : String) : String :=
  if strStarts "/" b then b
  else if a = "" || a.data.getLast? = some '/' then a ++ b
  else a ++ "/" ++ b

/-- The i-th candidate tried by `get_available_name`: the input name
itself first, then the original directory/root/extension with
`"_" ++ <random string>` inserted before the extension (`rnd j` is the
j-th output of the external `get_random_string(7)` collaborator). -/
def candidate (name : String) (rnd : Nat → String) : Nat → String
  | 0 => name
  | i + 1 =>
    let dir_name := (osSplit name).1
    let file_root := (splitext (osSplit name).2).1
    let file_ext := (splitext (osSplit name).2).2
    osJoin dir_name (file_root ++ "_" ++ rnd i ++ file_ext)

/-- Boolean form of the backend existence check (`S3exists` returns
`.ok` of exactly this value; proved below as `S3exists_eq_existsB`). -/
def existsB (st : S3State) (name : String) : Bool :=
  (lookupObj st name).isSome

/-- The `while self.exists(name)` loop of `get_available_name`,
starting at candidate index `i`, with explicit fuel (the source loop
is unbounded; `Option.none` means the loop has not returned within
`fuel` iterations). -/
def ganLoop (st : S3State) (rnd : Nat → String) (name : String) (i : Nat) :
    Nat → Option String
  | 0 => Option.none
  | fuel + 1 =>
    let cur := candidate name rnd i
    if existsB st cur then ganLoop st rnd name (i + 1) fuel else some cur

/-- `BaseStorage.get_available_name`, with fuel. -/
def get_available_name (st : S3State) (rnd : Nat → String) (name : String)
    (fuel : Nat) : Option String :=
  ganLoop st rnd name 0 fuel

/-! Supporting lemmas about the dictionary model. -/

theorem dictLookup_dictSet {α : Type} (d : List (String × α)) (k k' : String) (v : α) :
    dictLookup (dictSet d k v) k' = if k' = k then some v else dictLookup d k' := by
  induction d with
  | nil => simp [dictSet, dictLookup, eq_comm]
  | cons p t ih =>
    obtain ⟨k2, v2⟩ := p
    by_cases h : k2 = k
    · subst h
      by_cases h2 : k' = k2 <;> simp [dictSet, dictLookup, h2, eq_comm]
    · by_cases h2 : k2 = k' <;> by_cases h3 : k' = k
      · exact absurd (h2.trans h3) h
      all_goals simp_all [dictSet, dictLookup, ih]

theorem dictLookup_of_not_mem {α : Type} (d : List (String × α)) (k : String)
    (h : k ∉ d.map Prod.fst) : dictLookup d k = Option.none := by
  induction d with
  | nil => rfl
  | cons p t ih =>
    simp only [List.map_cons, List.mem_cons] at h
    push_neg at h
    simp [dictLookup, Ne.symm h.1, ih h.2]

theorem dictLookup_dictUpdate {α : Type} (u : List (String × α)) (d : List (String × α))
    (k : String) (h : (u.map Prod.fst).Nodup) :
    dictLookup (dictUpdate d u) k = (dictLookup u k).or (dictLookup d k) := by
  induction u generalizing d with
  | nil => simp [dictUpdate, dictLookup]
  | cons p t ih =>
    obtain ⟨k1, v1⟩ := p
    simp only [List.map_cons, List.nodup_cons] at h
    have step : dictUpdate d ((k1, v1) :: t) = dictUpdate (dictSet d k1 v1) t := rfl
    rw [step, ih (dictSet d k1 v1) h.2]
    by_cases hk : k = k1
    · subst hk
      have ht : dictLookup t k = Option.none := dictLookup_of_not_mem t k h.1
      simp [ht, dictLookup, dictLookup_dictSet]
    · have : dictLookup ((k1, v1) :: t) k = dictLookup t k := by
        simp [dictLookup, Ne.symm hk]
      rw [this]
      cases hv : dictLookup t k <;> simp [dictLookup_dictSet, hk]

theorem lookupObj_eq_dictLookup (st : S3State) (k : String) :
    lookupObj st k = dictLookup st k := by
  induction st with
  | nil => rfl
  | cons p t ih => obtain ⟨k2, o⟩ := p; simp [lookupObj, dictLookup, ih]

/-! Supporting lemmas about prefixes and prefix deletion. -/

theorem strStarts_self (a : String) : strStarts a a = true := by
  simp [strStarts, List.isPrefixOf_iff_prefix]

theorem strStarts_empty (k : String) : strStarts "" k = true := by
  simp [strStarts, List.isPrefixOf_iff_prefix]

theorem lookupObj_delAll (st : S3State) (n k : String) :
    lookupObj (delAll st n) k =
      if strStarts n k then Option.none else lookupObj st k := by
  induction st with
  | nil => cases h : strStarts n k <;> simp [delAll, lookupObj, h]
  | cons p t ih =>
    obtain ⟨k2, o⟩ := p
    by_cases h2 : k2 = k
    · subst h2
      cases h : strStarts n k2 <;>
        simp [delAll, lookupObj, h, List.filter] <;>
        simpa [delAll, h] using ih
    · cases h : strStarts n k2 <;>
        cases hk : strStarts n k <;>
        simp [delAll, lookupObj, h, hk, h2, List.filter] <;>
        simpa [delAll, hk] using ih

theorem S3exists_eq_existsB (st : S3State) (name : String) :
    S3exists st name = .ok (existsB st name) := by
  unfold S3exists existsB objLoad existsHandle
  cases h : lookupObj st name with
  | some o => simp
  | none =>
    simp only [Option.isSome_none]
    have : is_no_such_key_error headNotFoundErr = true := by decide
    simp [this]

/-! Supporting lemmas about the case-insensitive mapping. -/

theorem cidHasKey_map (f : PyVal → PyVal) (d : List (String × PyVal)) (k : String) :
    cidHasKey (d.map (fun kv => (kv.1, f kv.2))) k = cidHasKey d k := by
  induction d with
  | nil => rfl
  | cons p t ih => simp_all [cidHasKey]

theorem cidGet_map (f : PyVal → PyVal) (d : List (String × PyVal)) (k : String) :
    cidGet (d.map (fun kv => (kv.1, f kv.2))) k = (cidGet d k).map f := by
  induction d with
  | nil => rfl
  | cons p t ih =>
    by_cases h : lowerStr p.1 = lowerStr k <;> simp [cidGet, h, ih]

theorem cidRemove_map (f : PyVal → PyVal) (d : List (String × PyVal)) (k : String) :
    cidRemove (d.map (fun kv => (kv.1, f kv.2))) k =
      (cidRemove d k).map (fun kv => (kv.1, f kv.2)) := by
  induction d with
  | nil => rfl
  | cons p t ih =>
    by_cases h : lowerStr p.1 = lowerStr k <;> simp [cidRemove, List.filter, h, ih] <;>
      simpa [cidRemove] using ih

theorem cidGet_cidInsert_self (d : List (String × PyVal)) (k : String) (v : PyVal) :
    cidGet (cidInsert d k v) k = some v := by
  induction d with
  | nil => simp [cidInsert, cidGet]
  | cons p t ih =>
    obtain ⟨k2, v2⟩ := p
    by_cases h : lowerStr k2 = lowerStr k <;> simp [cidInsert, cidGet, h, ih]

theorem cidRemove_cidInsert (d : List (String × PyVal)) (k : String) (v : PyVal) :
    cidRemove (cidInsert d k v) k = cidRemove d k := by
  induction d with
  | nil => simp [cidInsert, cidRemove, List.filter]
  | cons p t ih =>
    obtain ⟨k2, v2⟩ := p
    by_cases h : lowerStr k2 = lowerStr k <;>
      simp_all [cidInsert, cidRemove, List.filter, h]

theorem cidRemove_of_no_key (d : List (String × PyVal)) (k : String)
    (h : cidHasKey d k = false) : cidRemove d k = d := by
  induction d with
  | nil => rfl
  | cons p t ih =>
    simp only [cidHasKey, List.any_cons, Bool.or_eq_false_iff] at h
    have h1 : ¬ lowerStr p.1 = lowerStr k := by
      intro hc; simp [hc] at h
    have h2 : cidHasKey t k = false := by
      simpa [cidHasKey] using h.2
    have h3 := ih h2
    simp only [cidRemove] at h3 ⊢
    rw [List.filter_cons_of_pos, h3]
    simp [h1]

theorem cidHasKey_eq_isSome (d : List (String × PyVal)) (k : String) :
    cidHasKey d k = (cidGet d k).isSome := by
  induction d with
  | nil => rfl
  | cons p t ih =>
    by_cases h : lowerStr p.1 = lowerStr k
    · simp [cidHasKey, cidGet, h]
    · rw [show cidHasKey (p :: t) k = cidHasKey t k from by simp [cidHasKey, h]]
      rw [show cidGet (p :: t) k = cidGet t k from by simp [cidGet, h]]
      exact ih

theorem drop_none_values_all_str (d : List (String × PyVal))
    (h : ∀ p ∈ d, p.2 ≠ PyVal.none) : drop_none_values d = d := by
  induction d with
  | nil => rfl
  | cons p t ih =>
    have h1 := h p (List.mem_cons_self p t)
    simp [drop_none_values, List.filter, h1]
    simpa [drop_none_values] using ih (fun q hq => h q (List.mem_cons_of_mem p hq))

/-! Supporting lemmas about the collision-avoidance loop. -/

theorem ganLoop_first (st : S3State) (rnd : Nat → String) (name : String)
    (fuel : Nat) :
    ∀ (i j : Nat), j < fuel →
      (∀ k, k < j → existsB st (candidate name rnd (i + k)) = true) →
      existsB st (candidate name rnd (i + j)) = false →
      ganLoop st rnd name i fuel = some (candidate name rnd (i + j)) := by
  induction fuel with
  | zero => intro i j h; exact absurd h (Nat.not_lt_zero j)
  | succ f ih =>
    intro i j hlt hbefore hfree
    cases j with
    | zero =>
      have h0 : existsB st (candidate name rnd i) = false := by simpa using hfree
      simp [ganLoop, h0]
    | succ j2 =>
      have h0 : existsB st (candidate name rnd i) = true := by
        simpa using hbefore 0 (Nat.succ_pos j2)
      have e1 : i + 1 + j2 = i + (j2 + 1) := by omega
      have hrec := ih (i + 1) j2 (by omega)
        (fun k hk => by
          have e2 : i + 1 + k = i + (k + 1) := by omega
          rw [e2]
          exact hbefore (k + 1) (by omega))
        (by rw [e1]; exact hfree)
      rw [e1] at hrec
      simp [ganLoop, h0, hrec]

theorem osJoin_empty_dir (b : String) : osJoin "" b = b := by
  have hap : ("" : String) ++ b = b := by obtain ⟨l⟩ := b; rfl
  unfold osJoin
  by_cases h : strStarts "/" b = true <;> simp [h, hap]

theorem candidate_photo (rnd : Nat → String) (i : Nat) :
    candidate "photo.jpg" rnd (i + 1) = "photo_" ++ rnd i ++ ".jpg" := by
  have h1 : osSplit "photo.jpg" = ("", "photo.jpg") := by decide
  have h2 : splitext "photo.jpg" = ("photo", ".jpg") := by decide
  simp only [candidate, h1, h2]
  rw [osJoin_empty_dir]
  have h3 : ("photo" : String) ++ "_" = "photo_" := rfl
  rw [h3]

/-! Claim theorems. -/

/-- Sample stored object used in the concrete statements below. -/
def xObj : StoredObj :=
  { body := [1, 2, 3], contentType := some "text/plain", e_tag := "\"abc\"",
    content_length := 3, last_modified := 7, metadata := [] }

/-- C1: the claim (and `save`'s own docstring) promises an "already
exists" failure before writing when `overwrite` is false and the
destination exists; the code of `BaseStorage.save` makes no such check
(and `ustorage/exceptions.py` defines no such error kind), so with
"x.txt" present, `save(source, "x.txt", overwrite=False)` raises
nothing, returns the name, and replaces the stored content. -/
theorem save_overwrites_existing_destination :
    S3exists [("x.txt", xObj)] "x.txt" = .ok true
    ∧ (save (fun _ => Option.none) [("x.txt", xObj)] [9] "x.txt" false).2 = "x.txt"
    ∧ S3read (save (fun _ => Option.none) [("x.txt", xObj)] [9] "x.txt" false).1 "x.txt"
        = .ok [9]
    ∧ ¬ S3read (save (fun _ => Option.none) [("x.txt", xObj)] [9] "x.txt" false).1 "x.txt"
        = .ok xObj.body := by
  decide

/-- C2: for a name absent from the backend, `exists` returns false and
raises nothing, while `read`, `open` for reading and `get_metadata`
raise `FileNotFound`; and each of their `except` blocks passes a
backend error that is not the not-found signal through unchanged. -/
theorem absent_name_error_contract (st : S3State) (name : String) (e : ClientError)
    (habs : lookupObj st name = Option.none)
    (hother : is_no_such_key_error e = false) :
    S3exists st name = .ok false
    ∧ S3read st name = .error (.fileNotFound (name ++ " not found."))
    ∧ S3openRead st name = .error (.fileNotFound (name ++ " not found."))
    ∧ S3get_metadata st name = .error (.fileNotFound (name ++ " not found."))
    ∧ existsHandle (.error e) = .error (.client e)
    ∧ readHandle name (.error e) = .error (.client e)
    ∧ extractHandle name (.error e) = .error (.client e) := by
  have hhead : is_no_such_key_error headNotFoundErr = true := by decide
  have hget : is_no_such_key_error getNotFoundErr = true := by decide
  refine ⟨?_, ?_, ?_, ?_, ?_, ?_, ?_⟩ <;>
    simp [S3exists, S3read, S3openRead, S3get_metadata, objLoad, objGet,
      existsHandle, readHandle, extractHandle, habs, hhead, hget, hother]

/-- Witness for C2 at a concrete empty bucket and a concrete
non-not-found backend error. -/
theorem absent_name_error_contract_witness :
    S3exists [] "a.txt" = .ok false
    ∧ S3read [] "a.txt" = .error (.fileNotFound ("a.txt" ++ " not found."))
    ∧ S3openRead [] "a.txt" = .error (.fileNotFound ("a.txt" ++ " not found."))
    ∧ S3get_metadata [] "a.txt" = .error (.fileNotFound ("a.txt" ++ " not found."))
    ∧ existsHandle (.error ⟨"Throttling", "Rate exceeded"⟩)
        = .error (.client ⟨"Throttling", "Rate exceeded"⟩)
    ∧ readHandle "a.txt" (.error ⟨"Throttling", "Rate exceeded"⟩)
        = .error (.client ⟨"Throttling", "Rate exceeded"⟩)
    ∧ extractHandle "a.txt" (.error ⟨"Throttling", "Rate exceeded"⟩)
        = .error (.client ⟨"Throttling", "Rate exceeded"⟩) :=
  absent_name_error_contract [] "a.txt" ⟨"Throttling", "Rate exceeded"⟩ rfl (by decide)

/-- C3: the write-mode `open` scope issues the single buffered put
exactly once on normal exit (after which the committed bytes are
readable), issues no put and leaves every stored object unchanged on
early/error exit, and never issues more than one put. -/
theorem openWrite_commits_exactly_once (st : S3State) (name : String) (buf : List Nat) :
    (S3openWrite st name (some buf)).2 = 1
    ∧ S3read (S3openWrite st name (some buf)).1 name = .ok buf
    ∧ S3openWrite st name Option.none = (st, 0)
    ∧ (∀ k, lookupObj (S3openWrite st name Option.none).1 k = lookupObj st k)
    ∧ (∀ body, (S3openWrite st name body).2 ≤ 1) := by
  refine ⟨rfl, ?_, rfl, fun k => rfl, ?_⟩
  · have hl : lookupObj (S3openWrite st name (some buf)).1 name
        = some { body := buf, contentType := Option.none, e_tag := mkETag buf,
                 content_length := buf.length, last_modified := 0, metadata := [] } := by
      unfold S3openWrite applyPut
      rw [lookupObj_eq_dictLookup, dictLookup_dictSet]
      simp
    simp [S3read, objGet, hl, readHandle]
  · intro body; cases body <;> simp [S3openWrite]

/-- C7: the object-store `delete` removes exactly the stored objects
whose key starts with the given name, never raises (it returns the
filtered bucket even when nothing matches), and is the identity when
no stored key has the name as a prefix. -/
theorem delete_prefix_semantics (st : S3State) (n : String) :
    S3delete st n = .ok (delAll st n)
    ∧ (∀ k, lookupObj (delAll st n) k =
        if strStarts n k then Option.none else lookupObj st k)
    ∧ (∀ p, p ∈ delAll st n ↔ (p ∈ st ∧ strStarts n p.1 = false))
    ∧ ((∀ p ∈ st, strStarts n p.1 = false) → S3delete st n = .ok st) := by
  refine ⟨rfl, fun k => lookupObj_delAll st n k, ?_, ?_⟩
  · intro p
    simp [delAll, List.mem_filter]
  · intro h
    unfold S3delete delAll
    congr 1
    refine List.filter_eq_self.mpr (fun p hp => ?_)
    simp [h p hp]

/-- Witness for C7 on a concrete two-object bucket. -/
theorem delete_prefix_semantics_witness :
    S3delete [("a", xObj), ("abc", xObj)] "ab"
      = .ok (delAll [("a", xObj), ("abc", xObj)] "ab")
    ∧ (∀ k, lookupObj (delAll [("a", xObj), ("abc", xObj)] "ab") k =
        if strStarts "ab" k then Option.none
        else lookupObj [("a", xObj), ("abc", xObj)] k)
    ∧ (∀ p, p ∈ delAll [("a", xObj), ("abc", xObj)] "ab" ↔
        (p ∈ [("a", xObj), ("abc", xObj)] ∧ strStarts "ab" p.1 = false))
    ∧ ((∀ p ∈ [("a", xObj), ("abc", xObj)], strStarts "ab" p.1 = false) →
        S3delete [("a", xObj), ("abc", xObj)] "ab"
          = .ok [("a", xObj), ("abc", xObj)]) :=
  delete_prefix_semantics [("a", xObj), ("abc", xObj)] "ab"

/-- C9: attribute get of a missing configuration key fails with the
"Unknown attribute" error; attribute set always succeeds, inserting or
replacing the key (any key, touching no other key); attribute delete
of a missing key fails with the same error string as get. -/
theorem config_attribute_contract {α : Type} (c : List (String × α)) (k : String)
    (v : α) (hm : dictLookup c k = Option.none) :
    configGetattr c k = .error ("Unknown attribute: " ++ k)
    ∧ configDelattr c k = .error ("Unknown attribute: " ++ k)
    ∧ (∀ d : List (String × α), configGetattr (configSetattr d k v) k = .ok v)
    ∧ (∀ (d : List (String × α)) (k2 : String), ¬ k2 = k →
        dictLookup (configSetattr d k v) k2 = dictLookup d k2) := by
  refine ⟨?_, ?_, ?_, ?_⟩
  · simp [configGetattr, hm]
  · simp [configDelattr, hm]
  · intro d
    simp [configGetattr, configSetattr, dictLookup_dictSet]
  · intro d k2 h2
    simp [configSetattr, dictLookup_dictSet, h2]

/-- Witness for C9 on a concrete container missing the key "region". -/
theorem config_attribute_contract_witness :
    configGetattr ([("bucket", 1)] : List (String × Nat)) "region"
      = .error ("Unknown attribute: " ++ "region")
    ∧ configDelattr ([("bucket", 1)] : List (String × Nat)) "region"
      = .error ("Unknown attribute: " ++ "region")
    ∧ (∀ d : List (String × Nat), configGetattr (configSetattr d "region" 7) "region" = .ok 7)
    ∧ (∀ (d : List (String × Nat)) (k2 : String), ¬ k2 = "region" →
        dictLookup (configSetattr d "region" 7) k2 = dictLookup d k2) :=
  config_attribute_contract [("bucket", 1)] "region" 7 rfl

/-- C10: no mutating operation validates a non-empty name: `delete`
with the empty string matches every key under the empty prefix and
empties the whole bucket, and `write` with the empty string issues its
put under the empty key, after which that key exists. -/
theorem empty_name_delete_wipes_bucket (mimeF : String → Option String)
    (st : S3State) (content : Content) (md : Option (List (String × PyVal))) :
    S3delete st "" = .ok ([] : S3State)
    ∧ (S3write mimeF st "" content md).2.key = ""
    ∧ existsB (S3write mimeF st "" content md).1 "" = true := by
  refine ⟨?_, rfl, ?_⟩
  · unfold S3delete delAll
    congr 1
    induction st with
    | nil => rfl
    | cons p t ih => simp [List.filter, strStarts_empty, ih]
  · unfold existsB S3write applyPut
    rw [lookupObj_eq_dictLookup, dictLookup_dictSet]
    simp

/-- Sample stored object carrying user metadata that shadows the
derived "mime" entry. -/
def wObj : StoredObj :=
  { body := [5], contentType := some "application/json; charset=utf-8",
    e_tag := "\"9a0364b9e99bb480dd25e1f0284c8555\"", content_length := 1,
    last_modified := 11, metadata := [("mime", "user/mime"), ("color", "blue")] }

/-- C4: the extracted Metadata Record has checksum "md5:" plus the
entity tag with its first and last characters removed, mime the
backend content type truncated at the first ';' (the Python `None`
marker when the backend reports no or an empty content type), size
and modification time from the backend, and the user metadata merged
last, so a user key shadows a derived entry exactly when the backend
stored it under that key. -/
theorem extract_metadata_contract (o : StoredObj) (k : String)
    (h : (o.metadata.map Prod.fst).Nodup) :
    dictLookup (_extract_metadata o) k =
      (dictLookup (o.metadata.map (fun kv => (kv.1, MetaVal.str kv.2))) k).or
        (dictLookup (metaBase o) k)
    ∧ dictLookup (metaBase o) "checksum" = some (.str ("md5:" ++ sliceInner o.e_tag))
    ∧ dictLookup (metaBase o) "size" = some (.nat o.content_length)
    ∧ dictLookup (metaBase o) "modified" = some (.time o.last_modified)
    ∧ dictLookup (metaBase o) "mime"
        = some (match o.contentType with
                | some c => if c = "" then MetaVal.pynone else MetaVal.str (takeUntilSemi c)
                | Option.none => MetaVal.pynone) := by
  have hnd : ((o.metadata.map (fun kv => (kv.1, MetaVal.str kv.2))).map Prod.fst).Nodup := by
    simpa [List.map_map, Function.comp] using h
  refine ⟨?_, rfl, rfl, rfl, rfl⟩
  unfold _extract_metadata
  exact dictLookup_dictUpdate _ (metaBase o) k hnd

/-- Witness for C4 at a concrete object whose user metadata contains
the reserved key "mime". -/
theorem extract_metadata_contract_witness :
    dictLookup (_extract_metadata wObj) "mime" =
      (dictLookup (wObj.metadata.map (fun kv => (kv.1, MetaVal.str kv.2))) "mime").or
        (dictLookup (metaBase wObj) "mime")
    ∧ dictLookup (metaBase wObj) "checksum"
        = some (.str ("md5:" ++ sliceInner wObj.e_tag))
    ∧ dictLookup (metaBase wObj) "size" = some (.nat wObj.content_length)
    ∧ dictLookup (metaBase wObj) "modified" = some (.time wObj.last_modified)
    ∧ dictLookup (metaBase wObj) "mime"
        = some (match wObj.contentType with
                | some c => if c = "" then MetaVal.pynone else MetaVal.str (takeUntilSemi c)
                | Option.none => MetaVal.pynone) :=
  extract_metadata_contract wObj "mime" (by decide)

/-- C5 counterexample: the value coercion runs before the `None`-drop,
so a user metadata entry with value `None` is sent to the backend as
the string "None" instead of being dropped as the claim states. -/
theorem none_metadata_value_sent_as_string :
    ((S3write (fun _ => some "text/plain") [] "f.bin" (.bytes [1])
        (some [("a", PyVal.none)])).2.metadata = [("a", "None")])
    ∧ ¬ ((S3write (fun _ => some "text/plain") [] "f.bin" (.bytes [1])
        (some [("a", PyVal.none)])).2.metadata = []) := by
  decide

/-- C5 amended: `write` issues a single put whose key is the name and
whose body is the coerced content; a caller-supplied Content-Type key,
under case-insensitive comparison, suppresses MIME auto-detection and
its `str`-coerced value is sent, otherwise the type sniffed from the
name is sent; every metadata value is coerced with `str` before the
`None`-drop runs, so the remaining mapping is sent in full (no entry
is dropped — a `None` value has already become the string "None"). -/
theorem write_put_contract (mimeF : String → Option String) (st : S3State)
    (name : String) (content : Content) (md : List (String × PyVal)) :
    (S3write mimeF st name content (some md)).2.key = name
    ∧ (S3write mimeF st name content (some md)).2.body = as_binary content
    ∧ (cidHasKey (cidOfList md) "Content-Type" = false →
        (S3write mimeF st name content (some md)).2.contentType = mimeF name
        ∧ (S3write mimeF st name content (some md)).2.metadata
            = (cidOfList md).map (fun kv => (kv.1, pyStr kv.2)))
    ∧ (∀ v, cidGet (cidOfList md) "Content-Type" = some v →
        (S3write mimeF st name content (some md)).2.contentType = some (pyStr v)
        ∧ (S3write mimeF st name content (some md)).2.metadata
            = (cidRemove (cidOfList md) "Content-Type").map
                (fun kv => (kv.1, pyStr kv.2))) := by
  have hstr : ∀ p ∈ (cidOfList md).map
      (fun kv => (kv.1, PyVal.str (pyStr kv.2))), p.2 ≠ PyVal.none := by
    intro p hp
    rcases List.mem_map.mp hp with ⟨q, hq, rfl⟩
    simp
  refine ⟨rfl, rfl, ?_, ?_⟩
  · intro h
    have h1 : cidHasKey ((cidOfList md).map
        (fun kv => (kv.1, PyVal.str (pyStr kv.2)))) "Content-Type" = false :=
      (cidHasKey_map (fun x => PyVal.str (pyStr x)) (cidOfList md) "Content-Type").trans h
    have h3 : cidRemove (cidInsert ((cidOfList md).map
          (fun kv => (kv.1, PyVal.str (pyStr kv.2)))) "Content-Type"
          (match mimeF name with | some s => PyVal.str s | Option.none => PyVal.none))
          "Content-Type"
        = (cidOfList md).map (fun kv => (kv.1, PyVal.str (pyStr kv.2))) := by
      rw [cidRemove_cidInsert]
      exact cidRemove_of_no_key _ _ h1
    constructor
    · simp only [S3write, h1, Bool.false_eq_true, if_false, cidGet_cidInsert_self]
      cases hmf : mimeF name <;> simp [hmf]
    · simp only [S3write, h1, Bool.false_eq_true, if_false]
      rw [h3, drop_none_values_all_str _ hstr]
      simp only [List.map_map]
      rfl
  · intro v hv
    have h1 : cidGet ((cidOfList md).map
        (fun kv => (kv.1, PyVal.str (pyStr kv.2)))) "Content-Type"
        = some (PyVal.str (pyStr v)) := by
      have hg := cidGet_map (fun x => PyVal.str (pyStr x)) (cidOfList md) "Content-Type"
      rw [hv] at hg
      simpa using hg
    have h2 : cidHasKey ((cidOfList md).map
        (fun kv => (kv.1, PyVal.str (pyStr kv.2)))) "Content-Type" = true := by
      rw [cidHasKey_eq_isSome, h1]
      rfl
    have h3 : cidRemove ((cidOfList md).map
          (fun kv => (kv.1, PyVal.str (pyStr kv.2)))) "Content-Type"
        = (cidRemove (cidOfList md) "Content-Type").map
            (fun kv => (kv.1, PyVal.str (pyStr kv.2))) :=
      cidRemove_map (fun x => PyVal.str (pyStr x)) (cidOfList md) "Content-Type"
    constructor
    · simp only [S3write, h2, if_true, h1]
    · simp only [S3write, h2, if_true]
      rw [h3, drop_none_values_all_str]
      · simp only [List.map_map]
        rfl
      · intro p hp
        rcases List.mem_map.mp hp with ⟨q, hq, rfl⟩
        simp

/-- Witness for C5 at a concrete caller metadata mapping whose
content-type key uses a different casing. -/
theorem write_put_contract_witness :
    (S3write (fun _ => some "text/plain") [] "f.bin" (.bytes [1])
        (some [("content-type", PyVal.str "app/x"), ("a", PyVal.str "1")])).2.key = "f.bin"
    ∧ (S3write (fun _ => some "text/plain") [] "f.bin" (.bytes [1])
        (some [("content-type", PyVal.str "app/x"), ("a", PyVal.str "1")])).2.body
        = as_binary (.bytes [1])
    ∧ (cidHasKey (cidOfList [("content-type", PyVal.str "app/x"), ("a", PyVal.str "1")])
          "Content-Type" = false →
        (S3write (fun _ => some "text/plain") [] "f.bin" (.bytes [1])
            (some [("content-type", PyVal.str "app/x"), ("a", PyVal.str "1")])).2.contentType
          = (fun _ => some "text/plain") "f.bin"
        ∧ (S3write (fun _ => some "text/plain") [] "f.bin" (.bytes [1])
            (some [("content-type", PyVal.str "app/x"), ("a", PyVal.str "1")])).2.metadata
          = (cidOfList [("content-type", PyVal.str "app/x"), ("a", PyVal.str "1")]).map
              (fun kv => (kv.1, pyStr kv.2)))
    ∧ (∀ v, cidGet (cidOfList [("content-type", PyVal.str "app/x"), ("a", PyVal.str "1")])
          "Content-Type" = some v →
        (S3write (fun _ => some "text/plain") [] "f.bin" (.bytes [1])
            (some [("content-type", PyVal.str "app/x"), ("a", PyVal.str "1")])).2.contentType
          = some (pyStr v)
        ∧ (S3write (fun _ => some "text/plain") [] "f.bin" (.bytes [1])
            (some [("content-type", PyVal.str "app/x"), ("a", PyVal.str "1")])).2.metadata
          = (cidRemove (cidOfList [("content-type", PyVal.str "app/x"), ("a", PyVal.str "1")])
                "Content-Type").map (fun kv => (kv.1, pyStr kv.2))) :=
  write_put_contract (fun _ => some "text/plain") [] "f.bin" (.bytes [1])
    [("content-type", PyVal.str "app/x"), ("a", PyVal.str "1")]

/-- C6 counterexample: when the target name extends the source name,
the prefix-matching `delete` of the default `move` removes the target
too: after `move("a", "ab")` on a bucket holding "a", reading "ab"
raises `FileNotFound` instead of returning the pre-move content. -/
theorem move_to_extending_name_loses_content :
    move [("a", xObj)] "a" "ab" = .ok ([] : S3State)
    ∧ S3read ([] : S3State) "ab" = .error (.fileNotFound ("ab" ++ " not found."))
    ∧ ¬ S3read ([] : S3State) "ab" = .ok xObj.body := by
  decide

/-- C6 amended: the default `move(a, b)` is `copy(a, b)` then
`delete(a)`; provided `b` does not start with `a`, after a successful
move `exists(a)` is false and `read(b)` returns the pre-move content
of `a`. -/
theorem move_contract (st : S3State) (a b : String) (o : StoredObj)
    (hsrc : lookupObj st a = some o) (hpfx : strStarts a b = false) :
    move st a b = Except.bind (S3copy st a b) (fun st1 => S3delete st1 a)
    ∧ move st a b = .ok (delAll (dictSet st b o) a)
    ∧ S3exists (delAll (dictSet st b o) a) a = .ok false
    ∧ S3read (delAll (dictSet st b o) a) b = .ok o.body := by
  refine ⟨rfl, ?_, ?_, ?_⟩
  · simp [move, S3copy, hsrc, S3delete, Except.bind]
  · rw [S3exists_eq_existsB]
    unfold existsB
    rw [lookupObj_delAll]
    simp [strStarts_self]
  · have hl : lookupObj (delAll (dictSet st b o) a) b = some o := by
      rw [lookupObj_delAll]
      simp only [hpfx, Bool.false_eq_true, if_false]
      rw [lookupObj_eq_dictLookup, dictLookup_dictSet]
      simp
    simp [S3read, objGet, hl, readHandle]

/-- Witness for C6 at a concrete one-object bucket and a target that
does not extend the source name. -/
theorem move_contract_witness :
    move [("doc.txt", xObj)] "doc.txt" "copy.txt"
      = Except.bind (S3copy [("doc.txt", xObj)] "doc.txt" "copy.txt")
          (fun st1 => S3delete st1 "doc.txt")
    ∧ move [("doc.txt", xObj)] "doc.txt" "copy.txt"
      = .ok (delAll (dictSet [("doc.txt", xObj)] "copy.txt" xObj) "doc.txt")
    ∧ S3exists (delAll (dictSet [("doc.txt", xObj)] "copy.txt" xObj) "doc.txt") "doc.txt"
      = .ok false
    ∧ S3read (delAll (dictSet [("doc.txt", xObj)] "copy.txt" xObj) "doc.txt") "copy.txt"
      = .ok xObj.body :=
  move_contract [("doc.txt", xObj)] "doc.txt" "copy.txt" xObj rfl (by decide)

/-- C8: `get_available_name` returns the first candidate that does not
exist, where candidate 0 is the input name itself (returned unchanged
when already free) and candidate i+1 re-inserts "_" plus the i-th
output of the random-string collaborator before the file extension of
the original name; on "photo.jpg" the non-initial candidates have the
form "photo_<random>.jpg". -/
theorem get_available_name_first_free (st : S3State) (rnd : Nat → String)
    (name : String) (fuel j : Nat) (hj : j < fuel)
    (hbusy : ∀ k, k < j → existsB st (candidate name rnd k) = true)
    (hfree : existsB st (candidate name rnd j) = false) :
    get_available_name st rnd name fuel = some (candidate name rnd j)
    ∧ (j = 0 → get_available_name st rnd name fuel = some name)
    ∧ (∀ i, candidate name rnd (i + 1)
        = osJoin (osSplit name).1
            ((splitext (osSplit name).2).1 ++ "_" ++ rnd i ++ (splitext (osSplit name).2).2))
    ∧ (∀ i, candidate "photo.jpg" rnd (i + 1) = "photo_" ++ rnd i ++ ".jpg") := by
  have hmain := ganLoop_first st rnd name fuel 0 j hj
    (fun k hk => by simpa using hbusy k hk)
    (by simpa using hfree)
  refine ⟨by simpa [get_available_name] using hmain, ?_, fun i => rfl,
    fun i => candidate_photo rnd i⟩
  intro h0
  subst h0
  simpa [get_available_name, candidate] using hmain

/-- Witness for C8: with "photo.jpg" stored and the collaborator
returning "AB12xyz", the second candidate "photo_AB12xyz.jpg" is free
and is returned. -/
theorem get_available_name_first_free_witness :
    get_available_name [("photo.jpg", xObj)] (fun _ => "AB12xyz") "photo.jpg" 2
      = some (candidate "photo.jpg" (fun _ => "AB12xyz") 1)
    ∧ ((1 : Nat) = 0 →
        get_available_name [("photo.jpg", xObj)] (fun _ => "AB12xyz") "photo.jpg" 2
          = some "photo.jpg")
    ∧ (∀ i, candidate "photo.jpg" (fun _ => "AB12xyz") (i + 1)
        = osJoin (osSplit "photo.jpg").1
            ((splitext (osSplit "photo.jpg").2).1 ++ "_" ++ "AB12xyz"
              ++ (splitext (osSplit "photo.jpg").2).2))
    ∧ (∀ i, candidate "photo.jpg" (fun _ => "AB12xyz") (i + 1)
        = "photo_" ++ "AB12xyz" ++ ".jpg") :=
  get_available_name_first_free [("photo.jpg", xObj)] (fun _ => "AB12xyz")
    "photo.jpg" 2 1 (by decide)
    (fun k hk => by interval_cases k <;> decide)
    (by decide)

end UStorage
